import Mathlib

/-!
Shallow embedding of custom_components/pp_portfolio/coordinator.py.

Python strings are modelled as List Char, Python floats as ℚ (all the
numeric code is decimal arithmetic whose comparisons are far from any
rounding boundary), Python dicts as insertion-ordered association lists,
and code that can raise as Option / pair-with-Option results.
-/

abbrev Str := List Char

/-- Rational literal num/den built through mkRat. Unlike ℚ division and
decimal literals (which are irreducible in this library version), this
evaluates under kernel reduction, so concrete runs of the embedding can be
settled by decide; the bridge lemma qv_eq_div relates it to division. -/
def qv (n : Int) (d : Nat) : ℚ := mkRat n d

/-- Kernel-reducible addition on ℚ (bridge lemma: qAdd_eq). -/
def qAdd (a b : ℚ) : ℚ := mkRat (a.num * b.den + b.num * a.den) (a.den * b.den)

/-- Kernel-reducible subtraction on ℚ (bridge lemma: qSub_eq). -/
def qSub (a b : ℚ) : ℚ := mkRat (a.num * b.den - b.num * a.den) (a.den * b.den)

/-- Kernel-reducible multiplication on ℚ (bridge lemma: qMul_eq). -/
def qMul (a b : ℚ) : ℚ := mkRat (a.num * b.num) (a.den * b.den)

/-- Kernel-reducible inverse on ℚ (bridge lemma: qInv_eq). -/
def qInv (a : ℚ) : ℚ := Rat.divInt a.den a.num

/-- Kernel-reducible division on ℚ (bridge lemma: qDiv_eq). -/
def qDiv (a b : ℚ) : ℚ := qMul a (qInv b)

/-- Shorthand turning a Lean string literal into the List Char model. -/
def sl (s : String) : Str := s.toList

/-- Characters stripped by Python str.strip(): unicode whitespace; the
inputs in this development only ever carry these seven. -/
def isWs (c : Char) : Bool :=
  c = ' ' ∨ c = '\t' ∨ c = '\n' ∨ c = '\r' ∨ c = '\x0b' ∨ c = '\x0c' ∨ c = ' '

/-- Models Python str.strip(). -/
def stripWs (l : Str) : Str :=
  ((l.dropWhile isWs).reverse.dropWhile isWs).reverse

/-- Models Python str.lower() on the ASCII-plus-lowercase-umlaut data seen here. -/
def lowerL (l : Str) : Str := l.map Char.toLower

/-- Models Python str.upper() on ASCII data. -/
def upperL (l : Str) : Str := l.map Char.toUpper

/-- Models Python s.replace(c, "") for a single character c. -/
def removeAll (c : Char) (l : Str) : Str := l.filter (fun x => x ≠ c)

/-- Models Python s.replace(a, b) for single characters a, b. -/
def replAll (a b : Char) (l : Str) : Str := l.map (fun c => if c = a then b else c)

/-- Models Python s.rfind(c): index of the last occurrence, -1 when absent. -/
def rfindIdx (c : Char) (l : Str) : Int :=
  match ((l.enum.filter (fun p => p.2 = c)).map (fun p => (p.1 : Int))).getLast? with
  | some i => i
  | none => -1

/-- Models Python truthiness fallback a or b on strings ("" is falsy). -/
def orS (a b : Str) : Str := if a = [] then b else a

def isDig (c : Char) : Bool := '0' ≤ c ∧ c ≤ '9'

def digVal (c : Char) : Nat := c.toNat - 48

/-- Splits a leading run of decimal digits off a character list. -/
def takeDigs : Str → (List Nat × Str)
  | [] => ([], [])
  | c :: r =>
    if isDig c then
      let p := takeDigs r
      (digVal c :: p.1, p.2)
    else ([], c :: r)

def digsVal (l : List Nat) : Nat := l.foldl (fun a d => a * 10 + d) 0

/-- Models Python int() applied to a string: surrounding whitespace is
stripped, then an optional sign and one or more decimal digits; anything
else raises, modelled as none. (Underscore digit separators are not
modelled; no input in this development contains them.) -/
def pyInt (s : Str) : Option Int :=
  let t := stripWs s
  let p : Int × Str :=
    match t with
    | '+' :: r => (1, r)
    | '-' :: r => (-1, r)
    | _ => (1, t)
  let d := takeDigs p.2
  if d.1 ≠ [] ∧ d.2 = [] then some (p.1 * (digsVal d.1 : Int)) else none

/-- Models Python float() applied to a string, for finite decimal
literals: surrounding whitespace, optional sign, digits with optional
fractional part and optional decimal exponent. Infinities, NaN and
underscore digit separators are not modelled; no input in this
development contains them. Failure (ValueError) is modelled as none. -/
def pyFloat (s : Str) : Option ℚ :=
  let t := stripWs s
  let p : ℚ × Str :=
    match t with
    | '+' :: r => (1, r)
    | '-' :: r => (-1, r)
    | _ => (1, t)
  let ipr := takeDigs p.2
  let fpr : List Nat × Str :=
    match ipr.2 with
    | '.' :: r => takeDigs r
    | _ => ([], ipr.2)
  if ipr.1 = [] ∧ fpr.1 = [] then none
  else
    let mant : ℚ := qMul p.1 (qAdd (qv (digsVal ipr.1) 1) (qv (digsVal fpr.1) (10 ^ fpr.1.length)))
    match fpr.2 with
    | [] => some mant
    | c :: r3 =>
      if c = 'e' ∨ c = 'E' then
        let ep : Bool × Str :=
          match r3 with
          | '+' :: r => (true, r)
          | '-' :: r => (false, r)
          | _ => (true, r3)
        let ed := takeDigs ep.2
        if ed.1 ≠ [] ∧ ed.2 = [] then
          some (if ep.1 then qMul mant (qv (10 ^ digsVal ed.1) 1)
                else qDiv mant (qv (10 ^ digsVal ed.1) 1))
        else none
      else none

/-- Separator-disambiguation stage of _parse_num (coordinator.py lines 37-45):
decides which of "," and "." is the decimal point and strips the other. -/
def sepNormalize (s : Str) : Str :=
  if ',' ∈ s ∧ '.' ∈ s then
    if rfindIdx ',' s < rfindIdx '.' s then removeAll ',' s
    else replAll ',' '.' (removeAll '.' s)
  else if ',' ∈ s ∧ '.' ∉ s then replAll ',' '.' (removeAll '.' s)
  else removeAll ',' s

/-- Embeds _parse_num (coordinator.py lines 30-50) on a string argument:
strip, empty / "-" short-circuit, currency and percent stripping,
separator disambiguation, float conversion with 0.0 on failure. -/
def parse_num (s : Str) : ℚ :=
  let s1 := stripWs s
  if s1 = [] ∨ s1 = ['-'] then 0
  else
    let s2 := stripWs (replAll ' ' ' ' (removeAll '%' (removeAll '€' s1)))
    (pyFloat (sepNormalize s2)).getD 0

/-- Embeds _parse_num including its leading s is None branch. -/
def parse_num_opt : Option Str → ℚ
  | none => 0
  | some s => parse_num s

/-- Embeds HEADER_ALIASES (coordinator.py lines 15-25), in dict insertion order. -/
def HEADER_ALIASES : List (Str × List Str) :=
  [ (sl "name", [sl "name", sl "wertpapier", sl "wertpapiername", sl "security", sl "instrument"]),
    (sl "ticker", [sl "ticker", sl "ticker-symbol", sl "symbol", sl "isin"]),
    (sl "quantity", [sl "bestand", sl "stück", sl "stueck", sl "menge", sl "anzahl", sl "quantity", sl "shares"]),
    (sl "price", [sl "kurs", sl "preis", sl "price"]),
    (sl "cost", [sl "einstandspreis", sl "einstand", sl "investiert", sl "kaufwert", sl "einstandswert", sl "cost", sl "cost basis", sl "purchase value"]),
    (sl "value", [sl "marktwert", sl "wert", sl "aktueller wert", sl "positionswert", sl "market value", sl "value", sl "bewertung"]),
    (sl "gain_abs", [sl "gewinn/verlust", sl "gewinn", sl "verlust", sl "p&l", sl "gain", sl "profit"]),
    (sl "gain_pct", [sl "gewinn/verlust %", sl "gewinn %", sl "verlust %", sl "p&l %", sl "gain %", sl "performance %"]),
    (sl "currency", [sl "währung", sl "currency"]) ]

/-- Embeds _norm (coordinator.py lines 27-28). -/
def norm (s : Str) : Str := lowerL (stripWs s)

/-- First column (in column order) whose normalized header is in the alias
list, as in the inner loop of _header_map. -/
def firstColInAux : List Str → List Str → Nat → Option Nat
  | [], _, _ => none
  | h :: rest, aliases, i => if h ∈ aliases then some i else firstColInAux rest aliases (i + 1)

def firstColIn (lower : List Str) (aliases : List Str) : Option Nat :=
  firstColInAux lower aliases 0

/-- Embeds _header_map (coordinator.py lines 52-60): canonical field to
column index, one entry per alias-matched field, in HEADER_ALIASES order. -/
def header_map (headers : List Str) : List (Str × Nat) :=
  let lower := headers.map norm
  HEADER_ALIASES.foldl
    (fun m p =>
      match firstColIn lower p.2 with
      | some i => m ++ [(p.1, i)]
      | none => m) []

/-- Association-list lookup, modelling Python dict.get. -/
def alGet {α : Type} : List (Str × α) → Str → Option α
  | [], _ => none
  | p :: r, k => if p.1 = k then some p.2 else alGet r k

/-- Association-list setdefault-then-mutate, modelling
dict.setdefault(key, dflt) followed by an in-place update; preserves
insertion order like a Python dict. -/
def alUpd {α : Type} : List (Str × α) → Str → α → (α → α) → List (Str × α)
  | [], k, d, f => [(k, f d)]
  | p :: r, k, d, f => if p.1 = k then (k, f p.2) :: r else p :: alUpd r k d f

def countC (c : Char) (l : Str) : Nat := (l.filter (fun x => x = c)).length

/-- Embeds _detect_delimiter (coordinator.py lines 62-74). The
csv.Sniffer library call is passed in as an oracle returning none when
sniffing raises; on samples containing no candidate delimiter at all the
library always raises, which is the only case exercised concretely here. -/
def detect_delimiter (sniff : Str → Option Char) (sample : Str) : Char :=
  match sniff sample with
  | some d => d
  | none =>
    if countC ';' sample ≥ countC ',' sample ∧ countC ';' sample > 0 then ';'
    else if countC ',' sample > 0 then ','
    else if '\t' ∈ sample then '\t'
    else ';'

/-- Splits on a separator character, keeping empty segments. -/
def splitOnC (d : Char) (l : Str) : List Str :=
  l.foldr
    (fun c acc =>
      match acc with
      | [] => if c = d then [[], []] else [[c]]
      | f :: rest => if c = d then [] :: f :: rest else (c :: f) :: rest)
    [[]]

/-- Line splitting as csv.reader sees it: a trailing newline does not
produce an extra empty row, and an empty input has no rows. -/
def linesOf (raw : Str) : List Str :=
  let ls := splitOnC '\n' raw
  match ls.getLast? with
  | some [] => ls.dropLast
  | _ => ls

/-- Models csv.reader row splitting for quote-free input (none of the
analysed inputs contain quote characters): each line is split on the
delimiter, an empty line giving the empty row as csv.reader does. -/
def csvRowsOf (d : Char) (raw : Str) : List (List Str) :=
  (linesOf raw).map (fun line => if line = [] then [] else splitOnC d line)

/-- Models "\n".join(raw.splitlines()[:5]), the sniffing sample. -/
def sampleOf (raw : Str) : Str :=
  List.intercalate ['\n'] ((linesOf raw).take 5)

structure Holding where
  name : Str
  ticker : Str
  quantity : ℚ
  price : ℚ
  value : ℚ
  cost : ℚ
  gain_abs : ℚ
  gain_pct : ℚ
  currency : Str
deriving DecidableEq

structure Totals where
  value : ℚ
  cost : ℚ
  gain_abs : ℚ
  gain_pct : ℚ
deriving DecidableEq

/-- Embeds the coordinator status dict (coordinator.py line 86). -/
structure Status where
  ok : Bool
  message : Str
  headers : List Str
  delimiter : Str
  source : Str
deriving DecidableEq

/-- The optimistic default set once in PPDataCoordinator.__init__. -/
def initStatus : Status :=
  { ok := true, message := [], headers := [], delimiter := [], source := [] }

structure ParseResult where
  holdings : List Holding
  totals : Totals
deriving DecidableEq

def emptyTotals : Totals := { value := 0, cost := 0, gain_abs := 0, gain_pct := 0 }

/-- Cell access r[idx] if idx is not None and idx < len(r) else dflt. -/
def cellD (r : List Str) (idx : Option Nat) (dflt : Str) : Str :=
  match idx with
  | some i => (r.get? i).getD dflt
  | none => dflt

/-- Embeds the derived-field reconciliation block of _read_csv
(coordinator.py lines 434-439), returning (value, gain_abs, cost). -/
def reconcile (qty price value cost gain_abs : ℚ) : ℚ × ℚ × ℚ :=
  let value1 := if value = 0 ∧ qMul qty price > 0 then qMul qty price else value
  let gain1 := if gain_abs = 0 ∧ value1 ≠ 0 ∧ cost ≠ 0 then qSub value1 cost else gain_abs
  let cost1 := if cost = 0 ∧ value1 ≠ 0 ∧ gain1 ≠ 0 then qSub value1 gain1 else cost
  (value1, gain1, cost1)

/-- Embeds the per-row holding construction of _read_csv
(coordinator.py lines 421-450). -/
def csvRow (mapping : List (Str × Nat)) (r : List Str) : Holding :=
  let get := fun k => cellD r (alGet mapping k) []
  let name := orS (get (sl "name")) (sl "Unbekannt")
  let ticker := get (sl "ticker")
  let qty := parse_num (get (sl "quantity"))
  let price := parse_num (get (sl "price"))
  let value := parse_num (get (sl "value"))
  let cost := parse_num (get (sl "cost"))
  let gain_abs := parse_num (get (sl "gain_abs"))
  let gain_pct := parse_num (get (sl "gain_pct"))
  let currency := stripWs (get (sl "currency"))
  let rec1 := reconcile qty price value cost gain_abs
  { name := name, ticker := orS ticker name, quantity := qty, price := price,
    value := rec1.1, cost := rec1.2.2, gain_abs := rec1.2.1, gain_pct := gain_pct,
    currency := orS currency (sl "EUR") }

/-- The required_any header check of _read_csv (coordinator.py line 414). -/
def requiredAny (mapping : List (Str × Nat)) : Bool :=
  [sl "value", sl "quantity", sl "price", sl "cost", sl "gain_abs", sl "gain_pct"].any
    (fun k => (alGet mapping k).isSome)

/-- Embeds _read_csv from the point where the rows are available
(coordinator.py lines 405-456); the delimiter has already been recorded
by the read_csv wrapper. -/
def read_csv_rows (st : Status) (rows : List (List Str)) : Status × ParseResult :=
  match rows with
  | [] =>
    ({ st with ok := false, message := sl "CSV leer", headers := [] },
     { holdings := [], totals := emptyTotals })
  | hdr :: body =>
    let st1 := { st with headers := hdr }
    let mapping := header_map hdr
    let st2 :=
      if requiredAny mapping then st1
      else { st1 with ok := false,
                      message := sl "CSV scheint keine Bestands-Ansicht zu sein (fehlende Spalten)." }
    let out := body.foldl
      (fun (acc : List Holding × (ℚ × ℚ × ℚ)) r =>
        if r.any (fun c => c ≠ []) then
          let h := csvRow mapping r
          (acc.1 ++ [h],
           (qAdd acc.2.1 h.value, qAdd acc.2.2.1 h.cost, qAdd acc.2.2.2 h.gain_abs))
        else acc)
      ([], (0, 0, 0))
    let totals : Totals :=
      { value := out.2.1, cost := out.2.2.1, gain_abs := out.2.2.2,
        gain_pct := if out.2.2.1 ≠ 0 then qMul (qDiv out.2.2.2 out.2.2.1) 100 else 0 }
    (st2, { holdings := out.1, totals := totals })

/-- Embeds _read_csv (coordinator.py lines 393-456): delimiter detection
and recording, then row parsing. -/
def read_csv (sniff : Str → Option Char) (st : Status) (raw : Str) : Status × ParseResult :=
  let delim := detect_delimiter sniff (sampleOf raw)
  let st1 := { st with delimiter := [delim] }
  read_csv_rows st1 (csvRowsOf delim raw)

/-- Index of the first occurrence of a string in a list (the string is
known to be present when used). -/
def idxOf (a : Str) : List Str → Nat
  | [] => 0
  | x :: r => if x = a then 0 else idxOf a r + 1

/-- Embeds the col helper of _read_tx_csv (coordinator.py lines 209-213):
first alias (in alias order) present in the normalized header. -/
def colIdx (lower : List Str) : List Str → Option Nat
  | [] => none
  | a :: rest => if a ∈ lower then some (idxOf a lower) else colIdx lower rest

/-- Transient accumulator entry for one security during replay. -/
structure TxEntry where
  name : Str
  ticker : Str
  currency : Str
  shares : ℚ
  cost : ℚ
deriving DecidableEq

/-- The six column indices resolved by _read_tx_csv
(coordinator.py lines 215-220). -/
structure TxCols where
  typ : Option Nat
  stueck : Option Nat
  wert : Option Nat
  ticker : Option Nat
  isin : Option Nat
  name : Option Nat
deriving DecidableEq

def txColsOf (lower : List Str) : TxCols :=
  { typ := colIdx lower [sl "typ", sl "type"],
    stueck := colIdx lower [sl "stück", sl "stueck", sl "shares", sl "menge", sl "anzahl"],
    wert := colIdx lower [sl "wert", sl "amount", sl "betrag", sl "bruttobetrag"],
    ticker := colIdx lower [sl "ticker-symbol", sl "ticker", sl "symbol"],
    isin := colIdx lower [sl "isin"],
    name := colIdx lower [sl "wertpapiername", sl "wertpapier", sl "name"] }

/-- Sign resolution of _read_tx_csv (coordinator.py lines 235-241) on the
already stripped and lowercased type cell: +1 for openings, -1 for
closings, none for every other transaction type. -/
def txSignOf (typ : Str) : Option ℚ :=
  if typ ∈ [sl "kauf", sl "buy", sl "einlieferung", sl "delivery_inbound"] then some 1
  else if typ ∈ [sl "verkauf", sl "sell", sl "auslieferung", sl "delivery_outbound"] then some (-1)
  else none

/-- Embeds one iteration of the row loop of _read_tx_csv
(coordinator.py lines 227-250) over the accumulator map. -/
def txRowStep (cols : TxCols) (m : List (Str × TxEntry)) (r : List Str) : List (Str × TxEntry) :=
  if r.any (fun c => c ≠ []) then
    let typ := lowerL (stripWs (cellD r cols.typ []))
    let qty := parse_num (cellD r cols.stueck (sl "0"))
    let amt := parse_num (cellD r cols.wert (sl "0"))
    match txSignOf typ with
    | none => m
    | some sg =>
      let key := orS (cellD r cols.ticker [])
        (orS (cellD r cols.isin []) (cellD r cols.name (sl "Unbekannt")))
      let name := orS (orS (cellD r cols.name []) key) (sl "Unbekannt")
      let ticker := orS (cellD r cols.ticker []) key
      alUpd m key { name := name, ticker := ticker, currency := sl "EUR", shares := 0, cost := 0 }
        (fun e => { e with shares := qAdd e.shares (qMul sg qty),
                           cost := qAdd e.cost (qMul sg amt) })
  else m

/-- Holding materialized from one retained transaction-CSV position
(coordinator.py lines 260-270). -/
def mkTxHolding (e : TxEntry) : Holding :=
  { name := e.name, ticker := orS e.ticker e.name, quantity := e.shares,
    price := 0, value := 0, cost := e.cost, gain_abs := 0, gain_pct := 0,
    currency := e.currency }

/-- Embeds the output loop of _read_tx_csv (coordinator.py lines 252-271):
drops non-positive positions, accumulates the cost total. -/
def txOut : List (Str × TxEntry) → (List Holding × ℚ) → (List Holding × ℚ)
  | [], acc => acc
  | p :: rest, acc =>
    if p.2.shares ≤ 0 then txOut rest acc
    else txOut rest (acc.1 ++ [mkTxHolding p.2], qAdd acc.2 p.2.cost)

/-- Embeds _read_tx_csv from the point where the rows are available
(coordinator.py lines 201-275). -/
def read_tx_csv_rows (st : Status) (rows : List (List Str)) : Status × ParseResult :=
  match rows with
  | [] =>
    ({ st with ok := false, message := sl "Depotumsätze-CSV leer", headers := [] },
     { holdings := [], totals := emptyTotals })
  | hdr :: body =>
    let st1 := { st with headers := hdr }
    let cols := txColsOf (hdr.map norm)
    if cols.typ = none ∨ cols.stueck = none ∨
        (cols.ticker = none ∧ cols.isin = none ∧ cols.name = none) then
      ({ st1 with
            ok := false,
            message := sl "Depotumsätze-CSV: benötigte Spalten nicht gefunden (Typ/Stück/Ticker/ISIN/Name)." },
       { holdings := [], totals := emptyTotals })
    else
      let tmp := body.foldl (txRowStep cols) []
      let out := txOut tmp ([], 0)
      let st2 := { st1 with
                      ok := true,
                      message := sl "Depotumsätze-CSV erkannt (" ++ Nat.toDigits 10 out.1.length
                        ++ sl " Positionen). Werte ohne Marktpreise.",
                      source := sl "tx_csv" }
      (st2, { holdings := out.1,
              totals := { value := 0, cost := out.2, gain_abs := 0, gain_pct := 0 } })

/-- Embeds _read_tx_csv (coordinator.py lines 193-275): delimiter
detection and recording, then row processing. -/
def read_tx_csv (sniff : Str → Option Char) (st : Status) (raw : Str) : Status × ParseResult :=
  let delim := detect_delimiter sniff (sampleOf raw)
  let st1 := { st with delimiter := [delim] }
  read_tx_csv_rows st1 (csvRowsOf delim raw)

/-- Price node of a security: the v attribute (attrib.get returns the
default when absent, modelled by the surrounding getD). -/
structure PriceNode where
  v : Option Str
deriving DecidableEq

/-- Security element as read by _read_pp_xml: each field is the findtext
result for the corresponding child (none when the child is absent). -/
structure Security where
  uuid : Option Str
  name : Option Str
  tickerSymbol : Option Str
  isin : Option Str
  currencyCode : Option Str
  prices : List PriceNode
deriving DecidableEq

/-- portfolio-transaction element: type, the reference attribute of the
security child (none when the child or the attribute is absent), shares
and amount texts. -/
structure PTx where
  typ : Option Str
  reference : Option Str
  shares : Option Str
  amount : Option Str
deriving DecidableEq

/-- Embeds parse_amount_cents (coordinator.py lines 309-313). -/
def parse_amount_cents (t : Str) : ℚ :=
  match pyFloat t with
  | some q => qDiv q 100
  | none => 0

/-- Embeds parse_shares_scaled (coordinator.py lines 315-319). -/
def parse_shares_scaled (t : Str) : ℚ :=
  match pyFloat t with
  | some q => qDiv q 1000000000
  | none => 0

/-- The fixed descending scale list of latest_price (coordinator.py line 329). -/
def scalesList : List ℚ :=
  [100000000, 10000000, 1000000, 100000, 10000, 1000, 100, 10, 1]

/-- The for loop of latest_price: first scale whose quotient lies in
[0.01, 1000000] (0.01 written as qv 1 100). -/
def scanScales (iv : Int) : List ℚ → Option ℚ
  | [] => none
  | s :: rest =>
    if qv 1 100 ≤ qDiv (iv : ℚ) s ∧ qDiv (iv : ℚ) s ≤ 1000000 then some (qDiv (iv : ℚ) s)
    else scanScales iv rest

/-- Embeds latest_price (coordinator.py lines 321-333): none models the
None returns (empty price list, non-integer v attribute); the final
fallback returns the raw integer. -/
def latest_price (sec : Security) : Option ℚ :=
  match sec.prices.getLast? with
  | none => none
  | some pr =>
    match pyInt (pr.v.getD (sl "0")) with
    | none => none
    | some iv =>
      match scanScales iv scalesList with
      | some p => some p
      | none => some (iv : ℚ)

/-- Match of the regex securities/security\[(\d+)\] at the head of the
list: the literal prefix, then one or more digits, then a closing bracket. -/
def refMatch (l : Str) : Option Nat :=
  if (sl "securities/security[").isPrefixOf l then
    let t := l.drop (sl "securities/security[").length
    let d := takeDigs t
    if d.1 ≠ [] ∧ d.2.head? = some ']' then some (digsVal d.1) else none
  else none

/-- re.search of the pattern anywhere in the reference string: first
position where refMatch succeeds. -/
def refScan : Str → Option Nat
  | [] => none
  | c :: rest =>
    match refMatch (c :: rest) with
    | some n => some n
    | none => refScan rest

/-- Embeds resolve_security_from_ref (coordinator.py lines 302-307):
extract the 1-based index, bounds-check, return the security or none. -/
def resolve_security_from_ref (securities : List Security) (ref : Str) : Option Security :=
  match refScan ref with
  | none => none
  | some n => if n = 0 then none else securities.get? (n - 1)

/-- The signs dict of _read_pp_xml (coordinator.py line 335) applied to
the stripped upper-cased type text. -/
def signsLookup (typ : Str) : Option ℚ :=
  if typ = sl "BUY" ∨ typ = sl "DELIVERY_INBOUND" then some 1
  else if typ = sl "SELL" ∨ typ = sl "DELIVERY_OUTBOUND" then some (-1)
  else none

/-- Embeds one iteration of the transaction loop of _read_pp_xml
(coordinator.py lines 337-357). -/
def xmlStep (securities : List Security) (m : List (Str × TxEntry)) (tx : PTx) :
    List (Str × TxEntry) :=
  match signsLookup (upperL (stripWs (tx.typ.getD []))) with
  | none => m
  | some sg =>
    match tx.reference with
    | none => m
    | some ref =>
      match resolve_security_from_ref securities ref with
      | none => m
      | some sec =>
        let key := orS (sec.uuid.getD []) (orS (sec.name.getD []) (sl "unknown"))
        let name := orS (sec.name.getD []) (sl "Unbekannt")
        let ticker := orS (sec.tickerSymbol.getD []) (orS (sec.isin.getD []) name)
        let currency := orS (sec.currencyCode.getD []) (sl "EUR")
        let shares := parse_shares_scaled (orS (tx.shares.getD []) (sl "0"))
        let amount := parse_amount_cents (orS (tx.amount.getD []) (sl "0"))
        alUpd m key { name := name, ticker := ticker, currency := currency, shares := 0, cost := 0 }
          (fun e => { e with shares := qAdd e.shares (qMul sg shares),
                             cost := qAdd e.cost (qMul sg amount) })

/-- The uuid lookup next((s for s in securities if (s.findtext uuid or
empty) == key), None) at materialization (coordinator.py line 365). -/
def findSecByUuid : List Security → Str → Option Security
  | [], _ => none
  | s :: r, k => if s.uuid.getD [] = k then some s else findSecByUuid r k

/-- Materialization of one retained XML position (coordinator.py lines
365-380). Returns none exactly when the Python code raises: the security
was found but latest_price returned None, so shares * None is a
TypeError. -/
def xmlHolding (securities : List Security) (key : Str) (e : TxEntry) : Option Holding :=
  let priceO : Option ℚ :=
    match findSecByUuid securities key with
    | some s => latest_price s
    | none => some 0
  match priceO with
  | none => none
  | some price =>
    let value := qMul e.shares price
    let gain := qSub value e.cost
    some { name := e.name, ticker := e.ticker, quantity := e.shares, price := price,
           value := value, cost := e.cost, gain_abs := gain,
           gain_pct := if e.cost ≠ 0 then qMul (qDiv gain e.cost) 100 else 0,
           currency := e.currency }

/-- Embeds the materialization loop of _read_pp_xml (coordinator.py lines
362-383): drops non-positive positions, builds holdings and totals; none
propagates the TypeError of xmlHolding, aborting the loop as the raised
exception does. -/
def xmlMat (securities : List Security) :
    List (Str × TxEntry) → (List Holding × (ℚ × ℚ × ℚ)) →
    Option (List Holding × (ℚ × ℚ × ℚ))
  | [], acc => some acc
  | p :: rest, acc =>
    if p.2.shares ≤ 0 then xmlMat securities rest acc
    else
      match xmlHolding securities p.1 p.2 with
      | none => none
      | some h =>
        xmlMat securities rest
          (acc.1 ++ [h], (qAdd acc.2.1 h.value, qAdd acc.2.2.1 h.cost, qAdd acc.2.2.2 h.gain_abs))

/-- Embeds _read_pp_xml (coordinator.py lines 297-390) on an already
parsed document (ET.parse is a library call; the document structure is
the input). A none result models the exception channel: the function
raises before touching the status, which the caller turns into
UpdateFailed. -/
def read_pp_xml (st : Status) (securities : List Security) (txs : List PTx) :
    Status × Option ParseResult :=
  let tmp := txs.foldl (xmlStep securities) []
  match xmlMat securities tmp ([], (0, 0, 0)) with
  | none => (st, none)
  | some out =>
    let totals : Totals :=
      { value := out.2.1, cost := out.2.2.1, gain_abs := out.2.2.2,
        gain_pct := if out.2.2.1 ≠ 0 then qMul (qDiv out.2.2.2 out.2.2.1) 100 else 0 }
    let st1 :=
      if out.1 = [] then
        { st with ok := false, message := sl "PP-XML erkannt, aber keine Bestands-Transaktionen gefunden." }
      else
        { st with ok := true,
                  message := sl "XML ok: " ++ Nat.toDigits 10 out.1.length ++ sl " Positionen." }
    (st1, some { holdings := out.1, totals := totals })

/-- One quote object of the external quote response: symbol, the three
price fields, currency (none models an absent JSON field). -/
structure Quote where
  symbol : Str
  regularMarketPrice : Option ℚ
  postMarketPrice : Option ℚ
  preMarketPrice : Option ℚ
  currency : Option Str
deriving DecidableEq

/-- Python a or b on optional numbers: a numeric 0 is falsy, so the
chain q.get(...) or q.get(...) keeps looking past a 0 price. -/
def pyOrQ (a b : Option ℚ) : Option ℚ :=
  match a with
  | some x => if x = 0 then b else some x
  | none => b

/-- The symbol-collection pass of _async_enrich_prices (coordinator.py
lines 94-103): upper-cased tickers of holdings with a non-empty ticker
and a falsy price, in holding order, with repeats. -/
def collectSymbols (holdings : List Holding) : List Str :=
  holdings.foldl
    (fun acc h =>
      let t := stripWs h.ticker
      if t = [] then acc
      else if h.price = 0 then acc ++ [upperL t] else acc) []

/-- The index map sym -> holding positions built by the same pass. -/
def collectIndex (holdings : List Holding) : List (Str × List Nat) :=
  holdings.enum.foldl
    (fun acc p =>
      let t := stripWs p.2.ticker
      if t = [] then acc
      else if p.2.price = 0 then alUpd acc (upperL t) [] (fun l => l ++ [p.1]) else acc) []

/-- The de-duplication pass (coordinator.py lines 106-111), preserving
first-seen order. -/
def dedupFirst (l : List Str) : List Str :=
  l.foldl (fun acc s => if s ∈ acc then acc else acc ++ [s]) []

/-- Fuel-driven worker for chunks40; structural on the fuel so that it
reduces definitionally. The fuel never runs out when it starts at the
list length, since each step drops at least one element. -/
def chunksAux {α : Type} : Nat → List α → List (List α)
  | _, [] => []
  | 0, _ :: _ => []
  | n + 1, x :: r => (x :: r).take 40 :: chunksAux n ((x :: r).drop 40)

/-- The chunks-of-40 loop for k in range(0, len(symbols), 40)
(coordinator.py lines 115-116). -/
def chunks40 {α : Type} (l : List α) : List (List α) :=
  chunksAux l.length l

/-- In-place update of the i-th list element, modelling holdings[idx]
mutation. -/
def updAt {α : Type} : List α → Nat → (α → α) → List α
  | [], _, _ => []
  | x :: r, 0, f => f x :: r
  | x :: r, i + 1, f => x :: updAt r i f

/-- The per-quote holding mutation of _async_enrich_prices
(coordinator.py lines 134-141). -/
def applyQuote (pr : ℚ) (curr : Str) (h : Holding) : Holding :=
  let h1 := { h with price := pr }
  let h2 := if h1.currency = [] then { h1 with currency := curr } else h1
  if h2.quantity ≠ 0 ∧ h2.value = 0 then { h2 with value := qMul pr h2.quantity } else h2

/-- Processing of one successful batch response (coordinator.py lines
127-141). -/
def applyBatch (index : List (Str × List Nat)) (results : List Quote)
    (holdings : List Holding) : List Holding :=
  results.foldl
    (fun hs q =>
      let sym := upperL q.symbol
      let price := pyOrQ (pyOrQ q.regularMarketPrice q.postMarketPrice) q.preMarketPrice
      let curr := orS (q.currency.getD []) (sl "EUR")
      match price with
      | none => hs
      | some pr =>
        if sym = [] then hs
        else ((alGet index sym).getD []).foldl (fun hs2 i => updAt hs2 i (applyQuote pr curr)) hs)
    holdings

/-- Embeds _async_enrich_prices (coordinator.py lines 92-141). The quote
service is an oracle from a symbol batch to a parsed response; none
models a non-200 response or a transport error, both of which the code
logs and skips (continue), leaving the batch unapplied. -/
def enrich_prices (quotes : List Str → Option (List Quote)) (holdings : List Holding) :
    List Holding :=
  let symbols := collectSymbols holdings
  if symbols = [] then holdings
  else
    let index := collectIndex holdings
    let uniq := dedupFirst symbols
    (chunks40 uniq).foldl
      (fun hs chunk =>
        match quotes chunk with
        | none => hs
        | some results => applyBatch index results hs)
      holdings

/-- Inner content of a .portfolio zip container as _read_portfolio_container
inspects it (coordinator.py lines 278-294). For an XML member, none in
the payload models an inner document on which ET.parse raises. -/
inductive ContainerInner where
  | xmlMember (doc : Option (List Security × List PTx))
  | binaryPPPBV
  | unknownBlob
  | emptyArchive
deriving DecidableEq

/-- Embeds _read_portfolio_container (coordinator.py lines 278-294); a
none result models a raised exception. -/
def read_portfolio_container (st : Status) (inner : ContainerInner) :
    Status × Option ParseResult :=
  match inner with
  | .xmlMember none => (st, none)
  | .xmlMember (some doc) => read_pp_xml st doc.1 doc.2
  | .binaryPPPBV =>
    ({ st with
          ok := false,
          message := sl "Binary .portfolio erkannt (PPPBV*). Bitte in PP: Datei → Speichern unter… → **XML** oder CSV exportieren." },
     some { holdings := [], totals := emptyTotals })
  | .unknownBlob =>
    ({ st with ok := false, message := sl "Unbekanntes .portfolio-Innenformat." },
     some { holdings := [], totals := emptyTotals })
  | .emptyArchive =>
    ({ st with ok := false, message := sl "Leeres oder unbekanntes .portfolio-Archiv." },
     some { holdings := [], totals := emptyTotals })

/-- An input file as _async_update_data observes it: its path, whether it
exists, its text (for the CSV reads), the parsed XML document for .xml
paths (none models an ET.parse failure), and the container content for
.portfolio paths (none models a zipfile failure). -/
structure MFile where
  path : Str
  present : Bool
  text : Str
  xmlDoc : Option (List Security × List PTx)
  container : Option ContainerInner
deriving DecidableEq

/-- First line of the file as f.readline() returns it, sans newline (the
lowered substring checks are unaffected by the trailing newline). -/
def firstLine (raw : Str) : Str := raw.takeWhile (fun c => c ≠ '\n')

/-- Substring containment, modelling Python's in operator on strings. -/
def containsSub : Str → Str → Bool
  | hay, needle =>
    if needle.isPrefixOf hay then true
    else
      match hay with
      | [] => false
      | _ :: t => containsSub t needle

/-- Totals recomputation after enrichment (coordinator.py lines 171-177). -/
def enrichTotals (holdings : List Holding) : Totals :=
  let p := holdings.foldl (fun (t : ℚ × ℚ) h => (qAdd t.1 h.value, qAdd t.2 h.cost)) (0, 0)
  { value := p.1, cost := p.2, gain_abs := qSub p.1 p.2,
    gain_pct := if p.2 ≠ 0 then qMul (qDiv (qSub p.1 p.2) p.2) 100 else 0 }

/-- Embeds _async_update_data (coordinator.py lines 143-190). The sniff
and quotes oracles stand for the csv.Sniffer and quote-service library
calls; live is the enable_live_prices flag. A none in the result models
the UpdateFailed channel: any exception escaping a parser aborts the
attempt, leaving the status exactly as the parser left it and the source
tag unset. -/
def update_data (sniff : Str → Option Char) (live : Bool)
    (quotes : List Str → Option (List Quote)) (st : Status) (f : MFile) :
    Status × Option ParseResult :=
  if f.present = false then
    ({ st with ok := false, message := sl "Datei nicht gefunden: " ++ f.path },
     some { holdings := [], totals := emptyTotals })
  else
    let routed : Status × Str × Option ParseResult :=
      if (sl ".csv").isSuffixOf f.path then
        let low := lowerL (firstLine f.text)
        if containsSub low (sl "typ") ∧ (containsSub low (sl "stück") ∨ containsSub low (sl "stueck")) then
          let r := read_tx_csv sniff st f.text
          (r.1, sl "tx_csv", some r.2)
        else
          let r := read_csv sniff st f.text
          (r.1, sl "csv", some r.2)
      else if (sl ".portfolio").isSuffixOf f.path then
        match f.container with
        | none => (st, sl "portfolio", none)
        | some inner =>
          let r := read_portfolio_container st inner
          (r.1, sl "portfolio", r.2)
      else if (sl ".xml").isSuffixOf f.path then
        match f.xmlDoc with
        | none => (st, sl "xml", none)
        | some doc =>
          let r := read_pp_xml st doc.1 doc.2
          (r.1, sl "xml", r.2)
      else
        let r := read_csv sniff st f.text
        (r.1, sl "auto", some r.2)
    match routed.2.2 with
    | none => (routed.1, none)
    | some data =>
      let st1 := { routed.1 with source := routed.2.1 }
      if live ∧ data.holdings ≠ [] then
        let hs := enrich_prices quotes data.holdings
        (st1, some { holdings := hs, totals := enrichTotals hs })
      else
        (st1, some data)

/-- Modelled from the spec wording of the scale search: take the most
recent price node's integer value and search the fixed descending scale
list for the first scale that yields a value in [0.01, 1000000]; if no
scale fits, fall back to the raw integer. Stated through List.find? to
compare against the loop embedding latest_price. -/
def latestPriceSpec (sec : Security) : Option ℚ :=
  match sec.prices.getLast? with
  | none => none
  | some pr =>
    match pyInt (pr.v.getD (sl "0")) with
    | none => none
    | some iv =>
      match scalesList.find?
          (fun s => decide (qv 1 100 ≤ qDiv (iv : ℚ) s) && decide (qDiv (iv : ℚ) s ≤ 1000000)) with
      | some s => some (qDiv (iv : ℚ) s)
      | none => some (iv : ℚ)

/-- A security whose single price node carries the integer 12345. -/
def sec12345 : Security :=
  { uuid := some (sl "u1"), name := some (sl "S1"), tickerSymbol := none, isin := none,
    currencyCode := none, prices := [{ v := some (sl "12345") }] }

/-- A security with a uuid but an empty price list. -/
def nopriceSec : Security :=
  { uuid := some (sl "u1"), name := some (sl "NoPrice"), tickerSymbol := none, isin := none,
    currencyCode := none, prices := [] }

/-- A security whose latest price attribute is not an integer. -/
def badPriceSec : Security :=
  { uuid := some (sl "u1"), name := some (sl "BadPrice"), tickerSymbol := none, isin := none,
    currencyCode := none, prices := [{ v := some (sl "12.34") }] }

/-- A BUY of 1.0 shares (fixed point 10^9) for 100.00 (cents) of the
first security. -/
def buyTx : PTx :=
  { typ := some (sl "BUY"), reference := some (sl "../../securities/security[1]"),
    shares := some (sl "1000000000"), amount := some (sl "10000") }

/-- A security with no uuid child, name X, carrying a price node. -/
def secA : Security :=
  { uuid := none, name := some (sl "X"), tickerSymbol := none, isin := none,
    currencyCode := none, prices := [{ v := some (sl "777") }] }

/-- A security whose uuid string equals the name of secA. -/
def secB : Security :=
  { uuid := some (sl "X"), name := some (sl "B"), tickerSymbol := none, isin := none,
    currencyCode := none, prices := [{ v := some (sl "4200") }] }

/-- An .xml input whose document replays to a retained position on
nopriceSec. -/
def xmlFileNP : MFile :=
  { path := sl "/p/d.xml", present := true, text := [],
    xmlDoc := some ([nopriceSec], [buyTx]), container := none }

/-- The status left behind by a failed ingestion attempt. -/
def failedStatus : Status :=
  { ok := false, message := sl "Datei nicht gefunden: /x", headers := [],
    delimiter := [], source := [] }

/-- A well-formed holdings CSV file: quantity header, one data row; its
sample contains no candidate delimiter, so csv.Sniffer raises and the
frequency fallback yields the semicolon default. -/
def wfCsvFile : MFile :=
  { path := sl "/p/h.csv", present := true, text := sl "bestand\n1",
    xmlDoc := none, container := none }

/-- A priceless holding with ticker ABC and quantity 3. -/
def abcHolding : Holding :=
  { name := sl "ABC", ticker := sl "ABC", quantity := 3, price := 0, value := 0,
    cost := 0, gain_abs := 0, gain_pct := 0, currency := sl "EUR" }

/-- A quote service answering 42 (currency USD) for the batch [ABC] and
failing on every other batch. -/
def abcOracle : List Str → Option (List Quote) := fun chunk =>
  if chunk = [sl "ABC"] then
    some [{ symbol := sl "ABC", regularMarketPrice := some 42, postMarketPrice := none,
            preMarketPrice := none, currency := some (sl "USD") }]
  else none

/-- Transaction-CSV rows: header and two buys of 5 and 3 shares at 100
and 60 for ticker ABC. -/
def buyRows : List (List Str) :=
  [[sl "Typ", sl "Stück", sl "Wert", sl "Ticker-Symbol"],
   [sl "Kauf", sl "5", sl "100", sl "ABC"],
   [sl "Kauf", sl "3", sl "60", sl "ABC"]]

/-- A sell of all 8 shares for 160. -/
def sellRow : List Str := [sl "Verkauf", sl "8", sl "160", sl "ABC"]

/-- The column layout of buyRows. -/
def demoCols : TxCols :=
  { typ := some 0, stueck := some 1, wert := some 2, ticker := some 3, isin := none, name := none }

/-- An accumulator entry keyed by the name X of secA. -/
def demoEntry : TxEntry :=
  { name := sl "X", ticker := sl "X", currency := sl "EUR", shares := 1, cost := 100 }

/-- Inhabited default used with headD when reading computed holding lists. -/
def holding0 : Holding :=
  { name := [], ticker := [], quantity := 0, price := 0, value := 0, cost := 0,
    gain_abs := 0, gain_pct := 0, currency := [] }

set_option maxRecDepth 4000

theorem qv_eq_div (n : Int) (d : Nat) : qv n d = (n : ℚ) / d := by
  rw [qv, Rat.mkRat_eq_divInt, Rat.divInt_eq_div]; norm_num

theorem qAdd_eq (a b : ℚ) : qAdd a b = a + b := (Rat.add_def' a b).symm

theorem qSub_eq (a b : ℚ) : qSub a b = a - b := (Rat.sub_def' a b).symm

theorem qMul_eq (a b : ℚ) : qMul a b = a * b := by
  rw [qMul, Rat.mul_def, Rat.normalize_eq_mkRat]

theorem qInv_eq (a : ℚ) : qInv a = a⁻¹ := by
  rw [qInv, show a⁻¹ = a.inv from rfl, Rat.inv_def]

theorem qDiv_eq (a b : ℚ) : qDiv a b = a / b := by
  rw [qDiv, qMul_eq, qInv_eq, Rat.div_def]; rfl

theorem scanScales_eq_find (iv : Int) (l : List ℚ) :
    scanScales iv l =
      (l.find? (fun s => decide (qv 1 100 ≤ qDiv (iv : ℚ) s) && decide (qDiv (iv : ℚ) s ≤ 1000000))).map
        (fun s => qDiv (iv : ℚ) s) := by
  induction l with
  | nil => rfl
  | cons s rest ih =>
    by_cases h : qv 1 100 ≤ qDiv (iv : ℚ) s ∧ qDiv (iv : ℚ) s ≤ 1000000
    · rw [scanScales, if_pos h, List.find?]
      have hb : (decide (qv 1 100 ≤ qDiv (iv : ℚ) s) && decide (qDiv (iv : ℚ) s ≤ 1000000)) = true := by
        simp [h.1, h.2]
      rw [hb]
      rfl
    · rw [scanScales, if_neg h, List.find?]
      have hb : (decide (qv 1 100 ≤ qDiv (iv : ℚ) s) && decide (qDiv (iv : ℚ) s ≤ 1000000)) = false := by
        rcases not_and_or.mp h with h1 | h1 <;> simp [h1]
      rw [hb]
      exact ih

theorem txOut_mem (l : List (Str × TxEntry)) :
    ∀ (acc : List Holding × ℚ), ∀ h ∈ (txOut l acc).1,
      h ∈ acc.1 ∨ ∃ e : TxEntry, 0 < e.shares ∧ h = mkTxHolding e := by
  induction l with
  | nil => intro acc h hm; exact Or.inl hm
  | cons p rest ih =>
    intro acc h hm
    by_cases hs : p.2.shares ≤ 0
    · rw [txOut, if_pos hs] at hm
      exact ih acc h hm
    · rw [txOut, if_neg hs] at hm
      rcases ih _ h hm with hin | hex
      · rcases List.mem_append.mp hin with h1 | h1
        · exact Or.inl h1
        · exact Or.inr ⟨p.2, lt_of_not_le hs, List.mem_singleton.mp h1⟩
      · exact Or.inr hex

theorem read_tx_csv_rows_mem (st : Status) (rows : List (List Str)) (h : Holding) :
    h ∈ (read_tx_csv_rows st rows).2.holdings →
    ∃ e : TxEntry, 0 < e.shares ∧ h = mkTxHolding e := by
  intro hm
  cases rows with
  | nil => simp [read_tx_csv_rows] at hm
  | cons hdr body =>
    simp only [read_tx_csv_rows] at hm
    split at hm
    · simp at hm
    · rcases txOut_mem _ _ h hm with hin | hex
      · simp at hin
      · exact hex

theorem xmlHolding_fields (secs : List Security) (key : Str) (e : TxEntry) (h : Holding) :
    xmlHolding secs key e = some h →
    h.quantity = e.shares ∧ h.cost = e.cost ∧
      h.gain_pct = (if h.cost ≠ 0 then qMul (qDiv h.gain_abs h.cost) 100 else 0) := by
  intro heq
  unfold xmlHolding at heq
  cases hp : (match findSecByUuid secs key with
      | some s => latest_price s
      | none => some 0) with
  | none => rw [hp] at heq; exact absurd heq (by simp)
  | some price =>
    rw [hp] at heq
    have := Option.some.inj heq
    subst this
    exact ⟨rfl, rfl, rfl⟩

theorem xmlMat_mem (secs : List Security) (l : List (Str × TxEntry)) :
    ∀ (acc : List Holding × (ℚ × ℚ × ℚ)) (res : List Holding × (ℚ × ℚ × ℚ)),
      xmlMat secs l acc = some res → ∀ h ∈ res.1,
        h ∈ acc.1 ∨ ∃ key e, 0 < e.shares ∧ xmlHolding secs key e = some h := by
  induction l with
  | nil =>
    intro acc res heq h hm
    rw [xmlMat] at heq
    cases Option.some.inj heq
    exact Or.inl hm
  | cons p rest ih =>
    intro acc res heq h hm
    by_cases hs : p.2.shares ≤ 0
    · rw [xmlMat, if_pos hs] at heq
      exact ih acc res heq h hm
    · rw [xmlMat, if_neg hs] at heq
      cases hh : xmlHolding secs p.1 p.2 with
      | none => rw [hh] at heq; exact absurd heq (by simp)
      | some hh2 =>
        rw [hh] at heq
        rcases ih _ res heq h hm with hin | hex
        · rcases List.mem_append.mp hin with h1 | h1
          · exact Or.inl h1
          · refine Or.inr ⟨p.1, p.2, lt_of_not_le hs, ?_⟩
            rw [hh, List.mem_singleton.mp h1]
        · exact Or.inr hex

theorem read_pp_xml_mem (st st1 : Status) (secs : List Security) (txs : List PTx)
    (d : ParseResult) (h : Holding) :
    read_pp_xml st secs txs = (st1, some d) → h ∈ d.holdings →
    ∃ key e, 0 < e.shares ∧ xmlHolding secs key e = some h := by
  intro heq hm
  simp only [read_pp_xml] at heq
  split at heq
  · exact absurd (congrArg Prod.snd heq) (by simp)
  · rename_i out hx
    have h2 := congrArg Prod.snd heq
    simp only at h2
    have h3 := Option.some.inj h2
    have hd : d.holdings = out.1 := by rw [← h3]
    rw [hd] at hm
    rcases xmlMat_mem secs _ _ _ hx h hm with hin | hex
    · simp at hin
    · exact hex

theorem findSecByUuid_none (secs : List Security) (key : Str) :
    (∀ s ∈ secs, s.uuid.getD [] ≠ key) → findSecByUuid secs key = none := by
  induction secs with
  | nil => intro _; rfl
  | cons s rest ih =>
    intro hall
    rw [findSecByUuid, if_neg (hall s (List.mem_cons_self s rest))]
    exact ih (fun t ht => hall t (List.mem_cons_of_mem s ht))

theorem chunksAux_all_le (n : Nat) : ∀ l : List Str,
    (chunksAux n l).all (fun b => b.length ≤ 40) = true := by
  induction n with
  | zero => intro l; cases l <;> rfl
  | succ n ih =>
    intro l
    cases l with
    | nil => rfl
    | cons x r =>
      rw [chunksAux, List.all_cons, ih]
      simp [List.length_take]

theorem chunksAux_flatten (n : Nat) : ∀ l : List Str, l.length ≤ n →
    (chunksAux n l).flatten = l := by
  induction n with
  | zero =>
    intro l hl
    cases l with
    | nil => rfl
    | cons x r => simp at hl
  | succ n ih =>
    intro l hl
    cases l with
    | nil => rfl
    | cons x r =>
      rw [chunksAux, List.flatten_cons,
        ih ((x :: r).drop 40) (by simp only [List.length_drop, List.length_cons] at hl ⊢; omega)]
      exact List.take_append_drop 40 (x :: r)

/-- Claim C1, counterexample: the claim's worked example is wrong on the
code. For the latest price integer 12345 the first fitting scale in the
descending list is 10^6 (12345/10^6 = 0.012345 already lies in
[0.01, 1000000]), so the resolved price is 0.012345 and not 123.45. -/
theorem C1_counterexample :
    latest_price sec12345 = some (12345 / 1000000 : ℚ) ∧
    (12345 / 1000000 : ℚ) ≠ (12345 / 100 : ℚ) := by
  constructor
  · have h : latest_price sec12345 = some (qv 2469 200000) := by decide
    rw [h]
    congr 1
    rw [qv_eq_div]
    norm_num
  · norm_num

/-- Claim C1, amended: the latest price of a retained position is the
most recent price node's integer divided by the first scale in the fixed
descending list whose quotient lies in [0.01, 1000000], falling back to
the raw integer (latest_price agrees with the spec-worded first-fit
search latestPriceSpec on every security); in particular the integer
12345 resolves to 12345/10^6 = 0.012345, not 123.45. -/
theorem C1_amended :
    (∀ sec : Security, latest_price sec = latestPriceSpec sec) ∧
    latest_price sec12345 = some (12345 / 1000000 : ℚ) := by
  constructor
  · intro sec
    cases hg : sec.prices.getLast? with
    | none => simp [latest_price, latestPriceSpec, hg]
    | some pr =>
      cases hpy : pyInt (pr.v.getD (sl "0")) with
      | none => simp [latest_price, latestPriceSpec, hg, hpy]
      | some iv =>
        cases hf : (scalesList.find?
            (fun s => decide (qv 1 100 ≤ qDiv (iv : ℚ) s) && decide (qDiv (iv : ℚ) s ≤ 1000000))) with
        | none => simp [latest_price, latestPriceSpec, hg, hpy, scanScales_eq_find, hf]
        | some s => simp [latest_price, latestPriceSpec, hg, hpy, scanScales_eq_find, hf]
  · have h : latest_price sec12345 = some (qv 2469 200000) := by decide
    rw [h]
    congr 1
    rw [qv_eq_div]
    norm_num

/-- Claim C2, counterexample: the holdings-CSV parser emits rows whose
parsed quantity is zero, so not every holding in a returned holdings
list has quantity strictly greater than 0. -/
theorem C2_counterexample :
    ¬ (∀ h ∈ (read_csv_rows initStatus [[sl "bestand"], [sl "0"]]).2.holdings, 0 < h.quantity) := by
  decide

/-- Claim C2, amended: the transaction-CSV and XML parsers drop
accumulated positions with non-positive quantity, so every holding they
return has quantity strictly greater than 0; the holdings-CSV parser
emits data rows regardless of their quantity. -/
theorem C2_amended :
    (∀ (st : Status) (rows : List (List Str)) (h : Holding),
        h ∈ (read_tx_csv_rows st rows).2.holdings → 0 < h.quantity) ∧
    (∀ (st st1 : Status) (secs : List Security) (txs : List PTx) (d : ParseResult) (h : Holding),
        read_pp_xml st secs txs = (st1, some d) → h ∈ d.holdings → 0 < h.quantity) := by
  constructor
  · intro st rows h hm
    obtain ⟨e, hpos, rfl⟩ := read_tx_csv_rows_mem st rows h hm
    exact hpos
  · intro st st1 secs txs d h heq hm
    obtain ⟨key, e, hpos, hh⟩ := read_pp_xml_mem st st1 secs txs d h heq hm
    have hf := xmlHolding_fields secs key e h hh
    rw [hf.1]
    exact hpos

theorem C2_witness :
    0 < (((read_tx_csv_rows initStatus buyRows).2.holdings).headD holding0).quantity ∧
    0 < ((((read_pp_xml initStatus [sec12345] [buyTx]).2.getD
        { holdings := [], totals := emptyTotals }).holdings).headD holding0).quantity :=
  ⟨C2_amended.1 initStatus buyRows _ (by decide),
   C2_amended.2 initStatus (read_pp_xml initStatus [sec12345] [buyTx]).1 [sec12345] [buyTx]
     ((read_pp_xml initStatus [sec12345] [buyTx]).2.getD { holdings := [], totals := emptyTotals }) _
     (by decide) (by decide)⟩

/-- Claim C3, counterexample: the Status record is not reset at the
start of an ingestion attempt. Starting from the status of a failed
attempt, a subsequent successful holdings-CSV parse of a well-formed
file (one data row parsed) leaves ok = false and the stale message in
place, updating only delimiter, headers and source. -/
theorem C3_counterexample :
    (update_data (fun _ => none) false (fun _ => none) failedStatus wfCsvFile).1.ok = false ∧
    (update_data (fun _ => none) false (fun _ => none) failedStatus wfCsvFile).1.message =
      failedStatus.message ∧
    ((update_data (fun _ => none) false (fun _ => none) failedStatus wfCsvFile).2.map
      (fun d => d.holdings.length)) = some 1 := by
  refine ⟨by decide, by decide, by decide⟩

/-- Claim C3, amended: the Status is initialized to the optimistic
default once at coordinator construction and is only mutated in place by
the parsers; no reset happens at the start of an ingestion attempt. The
holdings-CSV parser's success path touches only headers (and the
delimiter and source fields are set around it), so after a failed
attempt a subsequent successful holdings-CSV parse leaves ok and message
exactly as the failed attempt left them. -/
theorem C3_amended :
    initStatus.ok = true ∧ initStatus.message = [] ∧ initStatus.headers = [] ∧
    initStatus.delimiter = [] ∧
    (∀ (st : Status) (hdr : List Str) (body : List (List Str)),
        requiredAny (header_map hdr) = true →
        (read_csv_rows st (hdr :: body)).1 = { st with headers := hdr }) ∧
    (update_data (fun _ => none) false (fun _ => none) failedStatus wfCsvFile).1 =
      { failedStatus with delimiter := [';'], headers := [sl "bestand"], source := sl "csv" } := by
  refine ⟨rfl, rfl, rfl, rfl, ?_, by decide⟩
  intro st hdr body hreq
  simp [read_csv_rows, hreq]

theorem C3_witness :
    (read_csv_rows initStatus [[sl "bestand"], [sl "1"]]).1 =
      { initStatus with headers := [sl "bestand"] } :=
  C3_amended.2.2.2.2.1 initStatus [sl "bestand"] [[sl "1"]] (by decide)

/-- Claim C4: the holdings-CSV reconciliation runs in the fixed order
value, then gain_abs, then cost, with exactly the claimed guards
(value = 0 and quantity*price > 0; gain_abs = 0 and value, cost nonzero;
cost = 0 and value, gain_abs nonzero); and on full parses, a row with
quantity 10, price 5, value 0 yields value 50, while a row with value
100, cost 80 and no gain_abs column yields gain_abs 20. -/
theorem C4 :
    (∀ qty price value cost gain_abs : ℚ,
      reconcile qty price value cost gain_abs =
        (let v := if value = 0 ∧ qty * price > 0 then qty * price else value
         let g := if gain_abs = 0 ∧ v ≠ 0 ∧ cost ≠ 0 then v - cost else gain_abs
         let c := if cost = 0 ∧ v ≠ 0 ∧ g ≠ 0 then v - g else cost
         (v, g, c))) ∧
    (read_csv_rows initStatus [[sl "bestand", sl "kurs", sl "wert"],
        [sl "10", sl "5", sl "0"]]).2.holdings.map (fun h => h.value) = [50] ∧
    (read_csv_rows initStatus [[sl "wert", sl "einstand"],
        [sl "100", sl "80"]]).2.holdings.map (fun h => h.gain_abs) = [20] := by
  refine ⟨?_, by decide, by decide⟩
  intro qty price value cost gain_abs
  simp only [reconcile, qMul_eq, qSub_eq]

/-- Claim C5: the transaction-CSV replay accumulates signed shares and
amounts grouped by identity key; two buys of 5 and 3 shares at 100 and
60 for ticker ABC yield the single holding with quantity 8 and cost 160,
a subsequent sell of all 8 shares drops the position, the German and
English opening synonyms map to +1 and the closing synonyms to -1, and a
row whose type resolves to no sign leaves the accumulator untouched. -/
theorem C5 :
    (read_tx_csv_rows initStatus buyRows).2.holdings =
      [{ name := sl "ABC", ticker := sl "ABC", quantity := 8, price := 0, value := 0,
         cost := 160, gain_abs := 0, gain_pct := 0, currency := sl "EUR" }] ∧
    (read_tx_csv_rows initStatus (buyRows ++ [sellRow])).2.holdings = [] ∧
    ([sl "kauf", sl "buy", sl "einlieferung", sl "delivery_inbound"].all
      (fun t => txSignOf t = some 1)) = true ∧
    ([sl "verkauf", sl "sell", sl "auslieferung", sl "delivery_outbound"].all
      (fun t => txSignOf t = some (-1))) = true ∧
    (∀ (cols : TxCols) (m : List (Str × TxEntry)) (r : List Str),
      txSignOf (lowerL (stripWs (cellD r cols.typ []))) = none → txRowStep cols m r = m) := by
  refine ⟨by decide, by decide, by decide, by decide, ?_⟩
  intro cols m r h
  simp [txRowStep, h]

theorem C5_witness :
    txRowStep demoCols [] [sl "Dividende", sl "1", sl "10", sl "ABC"] = [] :=
  C5.2.2.2.2 demoCols [] [sl "Dividende", sl "1", sl "10", sl "ABC"] (by decide)

/-- Claim C6: parse_num is total by construction (every failure path,
including the None input, the empty and "-" short-circuits and a
residual float failure, returns 0); when both separators appear the one
occurring later is kept as the decimal point and the other stripped,
when only the comma appears it becomes the decimal point, and otherwise
commas are stripped; and the five concrete examples of the claim hold. -/
theorem C6 :
    parse_num_opt none = 0 ∧
    parse_num (sl "1.234,56") = 1234.56 ∧
    parse_num (sl "1,234.56") = 1234.56 ∧
    parse_num (sl "") = 0 ∧
    parse_num (sl "-") = 0 ∧
    parse_num (sl "12,5%") = 12.5 ∧
    parse_num (sl "abc") = 0 ∧
    (∀ s : Str, ',' ∈ s → '.' ∈ s → rfindIdx ',' s < rfindIdx '.' s →
        sepNormalize s = removeAll ',' s) ∧
    (∀ s : Str, ',' ∈ s → '.' ∈ s → rfindIdx '.' s < rfindIdx ',' s →
        sepNormalize s = replAll ',' '.' (removeAll '.' s)) ∧
    (∀ s : Str, ',' ∈ s → '.' ∉ s → sepNormalize s = replAll ',' '.' (removeAll '.' s)) ∧
    (∀ s : Str, ',' ∉ s → sepNormalize s = removeAll ',' s) := by
  have e1 : parse_num (sl "1.234,56") = qv 30864 25 := by decide
  have e2 : parse_num (sl "1,234.56") = qv 30864 25 := by decide
  have e3 : parse_num (sl "12,5%") = qv 25 2 := by decide
  have hq1 : qv 30864 25 = (1234.56 : ℚ) := by rw [qv_eq_div]; norm_num
  have hq2 : qv 25 2 = (12.5 : ℚ) := by rw [qv_eq_div]; norm_num
  refine ⟨rfl, by rw [e1, hq1], by rw [e2, hq1], by decide, by decide, by rw [e3, hq2],
    by decide, ?_, ?_, ?_, ?_⟩
  · intro s h1 h2 h3
    rw [sepNormalize, if_pos ⟨h1, h2⟩, if_pos h3]
  · intro s h1 h2 h3
    rw [sepNormalize, if_pos ⟨h1, h2⟩, if_neg (not_lt.mpr (le_of_lt h3))]
  · intro s h1 h2
    rw [sepNormalize, if_neg (fun hc => h2 hc.2), if_pos ⟨h1, h2⟩]
  · intro s h1
    rw [sepNormalize, if_neg (fun hc => h1 hc.1)]
    by_cases h2 : '.' ∈ s
    · rw [if_neg (fun hc => h1 hc.1)]
    · rw [if_neg (fun hc => h1 hc.1)]

theorem C6_witness :
    sepNormalize (sl "12,5") = replAll ',' '.' (removeAll '.' (sl "12,5")) :=
  C6.2.2.2.2.2.2.2.2.2.1 (sl "12,5") (by decide) (by decide)

/-- Claim C7, counterexample: the holdings-CSV parser carries the parsed
gain_pct column (0 when the column is absent) instead of deriving it; a
row yielding value 100, cost 80, gain_abs 20 ends with gain_pct 0 even
though gain_abs/cost*100 = 25. -/
theorem C7_counterexample :
    (read_csv_rows initStatus [[sl "wert", sl "einstand"],
        [sl "100", sl "80"]]).2.holdings.map (fun h => (h.cost, h.gain_abs, h.gain_pct)) =
      [(80, 20, 0)] ∧
    (20 : ℚ) / 80 * 100 = 25 ∧ (0 : ℚ) ≠ 25 := by
  refine ⟨by decide, by norm_num, by norm_num⟩

/-- Claim C7, amended: holdings produced by the XML parser satisfy
gain_pct = gain_abs/cost*100 when cost is nonzero and 0 otherwise, and
transaction-CSV holdings satisfy the same relation (their gain_abs and
gain_pct are both 0); holdings-CSV rows instead carry the parsed
gain_pct column value, which is 0 for the claimed row with value 100 and
cost 80 rather than 25. -/
theorem C7_amended :
    (∀ (st st1 : Status) (secs : List Security) (txs : List PTx) (d : ParseResult),
        read_pp_xml st secs txs = (st1, some d) → ∀ h ∈ d.holdings,
        h.gain_pct = if h.cost ≠ 0 then h.gain_abs / h.cost * 100 else 0) ∧
    (∀ (st : Status) (rows : List (List Str)), ∀ h ∈ (read_tx_csv_rows st rows).2.holdings,
        h.gain_pct = if h.cost ≠ 0 then h.gain_abs / h.cost * 100 else 0) ∧
    (read_csv_rows initStatus [[sl "wert", sl "einstand"],
        [sl "100", sl "80"]]).2.holdings.map (fun h => h.gain_pct) = [0] := by
  refine ⟨?_, ?_, by decide⟩
  · intro st st1 secs txs d heq h hm
    obtain ⟨key, e, hpos, hh⟩ := read_pp_xml_mem st st1 secs txs d h heq hm
    have hf := xmlHolding_fields secs key e h hh
    rw [hf.2.2]
    simp only [qDiv_eq, qMul_eq]
  · intro st rows h hm
    obtain ⟨e, hpos, rfl⟩ := read_tx_csv_rows_mem st rows h hm
    simp [mkTxHolding, zero_div]
  
theorem C7_witness :
    ((((read_pp_xml initStatus [sec12345] [buyTx]).2.getD
          { holdings := [], totals := emptyTotals }).holdings).headD holding0).gain_pct =
      if ((((read_pp_xml initStatus [sec12345] [buyTx]).2.getD
          { holdings := [], totals := emptyTotals }).holdings).headD holding0).cost ≠ 0 then
        ((((read_pp_xml initStatus [sec12345] [buyTx]).2.getD
            { holdings := [], totals := emptyTotals }).holdings).headD holding0).gain_abs /
          ((((read_pp_xml initStatus [sec12345] [buyTx]).2.getD
              { holdings := [], totals := emptyTotals }).holdings).headD holding0).cost * 100
      else 0 :=
  C7_amended.1 initStatus (read_pp_xml initStatus [sec12345] [buyTx]).1 [sec12345] [buyTx]
    ((read_pp_xml initStatus [sec12345] [buyTx]).2.getD { holdings := [], totals := emptyTotals })
    (by decide) _ (by decide)

/-- Claim C8: the quote enricher leaves every holding unchanged when
every batch fails (transport error or non-success response, modelled by
the oracle returning none), so ingestion never fails through it; the
batches are the chunks of at most 40 of the de-duplicated first-seen
upper-cased symbols and together cover exactly those symbols; and a
holding with ticker ABC, no price and quantity 3, given a quote of 42
for ABC, ends with price 42 and value 126. -/
theorem C8 :
    (∀ holdings : List Holding, enrich_prices (fun _ => none) holdings = holdings) ∧
    (∀ holdings : List Holding,
      ((chunks40 (dedupFirst (collectSymbols holdings))).all (fun b => b.length ≤ 40)) = true) ∧
    (∀ holdings : List Holding,
      (chunks40 (dedupFirst (collectSymbols holdings))).flatten =
        dedupFirst (collectSymbols holdings)) ∧
    enrich_prices abcOracle [abcHolding] = [{ abcHolding with price := 42, value := 126 }] := by
  refine ⟨?_, ?_, ?_, by decide⟩
  · intro hs
    simp only [enrich_prices]
    split
    · rfl
    · generalize chunks40 (dedupFirst (collectSymbols hs)) = bs
      induction bs with
      | nil => rfl
      | cons b rest ih =>
        rw [List.foldl_cons]
        exact ih
  · intro hs
    exact chunksAux_all_le _ _
  · intro hs
    exact chunksAux_flatten _ _ (le_refl _)

/-- Claim C9: for a well-formed XML document whose retained position
references a security with a uuid but an empty price list (or a
non-integer latest price value), latest_price yields None and the
multiplication shares * None raises, so the parse aborts through the
exception channel (modelled none) with the status untouched, and the
whole ingestion attempt ends as an UpdateFailed rather than a
Status-reported result. -/
theorem C9 :
    latest_price nopriceSec = none ∧
    latest_price badPriceSec = none ∧
    read_pp_xml initStatus [nopriceSec] [buyTx] = (initStatus, none) ∧
    update_data (fun _ => none) false (fun _ => none) initStatus xmlFileNP = (initStatus, none) := by
  refine ⟨by decide, by decide, by decide, by decide⟩

/-- Claim C10, counterexample: a retained position on a security without
a uuid child (key falling back to its name X) can still hit a security
at materialization when another security's uuid equals that name; here
the lookup finds secB and the emitted holding carries secB's price
0.042, not 0, refuting the claim as universally stated. -/
theorem C10_counterexample :
    secA.uuid = none ∧ secA.prices ≠ [] ∧
    ((read_pp_xml initStatus [secA, secB] [buyTx]).2.getD
        { holdings := [], totals := emptyTotals }).holdings.map (fun h => (h.name, h.price)) =
      [(sl "X", qv 21 500)] ∧
    (qv 21 500 : ℚ) ≠ 0 := by
  refine ⟨by decide, by decide, by decide, by decide⟩

/-- Claim C10, amended: at materialization, a retained accumulator entry
whose key is not the uuid string of any security in the table — in
particular the name-keyed entry of a security without a uuid child, when
no security's uuid equals that name — finds no security, and the emitted
holding has price 0, value 0 and gain_abs = -cost, even when the
originating security carries price nodes. -/
theorem C10_amended :
    ∀ (secs : List Security) (key : Str) (e : TxEntry),
      (∀ s ∈ secs, s.uuid.getD [] ≠ key) →
      (xmlHolding secs key e).map (fun h => (h.price, h.value, h.gain_abs)) =
        some (0, 0, -e.cost) := by
  intro secs key e hall
  simp only [xmlHolding, findSecByUuid_none secs key hall]
  simp [qMul_eq, qSub_eq]

theorem C10_witness :
    (xmlHolding [secA] (sl "X") demoEntry).map (fun h => (h.price, h.value, h.gain_abs)) =
      some (0, 0, -demoEntry.cost) :=
  C10_amended [secA] (sl "X") demoEntry (by decide)
